import Mathlib

/-!
Shallow embedding of `src/gym/envs/toy_text/nchain.py` (`NChainEnv`).

The environment walks a chain of `n` states with two actions (0 = forward,
1 = backward), a slip probability, `small`/`large` rewards and an episode
step budget `max_iters`. Numeric quantities (the slip probability, rewards
and the uniform draws of the random source) are modelled as rationals.
The random source is modelled as a stream of draws `rng : ℕ → ℚ` together
with a position `rngPos`; each valid `step` consumes exactly one draw.
-/

namespace NChain

/-- Configuration fixed at construction: `n`, `slip`, `small`, `large`,
`max_iters` of `NChainEnv.__init__`. -/
structure Config where
  n : ℕ
  slip : ℚ
  small : ℚ
  large : ℚ
  max_iters : ℕ
  deriving DecidableEq, Repr

/-- Mutable run state of the environment: `self.state`, `self.iters`, and the
random source (`self.np_random`), modelled as a draw stream plus a cursor. -/
structure Env where
  cfg : Config
  state : ℕ
  iters : ℕ
  rng : ℕ → ℚ
  rngPos : ℕ

/-- Modelled from the spec: membership test of `spaces.Discrete(2)`
(`gym.spaces`, not under `src/`) — the requested action must lie in
`{0, 1}`. -/
def containsAction (a : ℤ) : Bool :=
  decide (0 ≤ a) && decide (a < 2)

/-- One entry of the transition table `self.P`: the source appends 4-tuples
`(probability, next_state, reward, None)`; the trailing `None` is the
`info` field here, always `none`. -/
structure PEntry where
  prob : ℚ
  next : ℕ
  reward : ℚ
  info : Option Unit
  deriving DecidableEq, Repr

/-- The list `self.P[state][action]` built by the nested loops of
`NChainEnv.__init__` (meaningful for `state < n`, `action < 2`, the keys of
the dictionaries). -/
def transitions (cfg : Config) (state : ℕ) (action : ℕ) : List PEntry :=
  let f_reward : ℚ := if state = cfg.n - 1 then cfg.large else 0
  let next_state : ℕ := if state = cfg.n - 1 then state else state + 1
  if action = 0 then
    [⟨1 - cfg.slip, next_state, f_reward, none⟩, ⟨cfg.slip, 0, cfg.small, none⟩]
  else
    [⟨1 - cfg.slip, 0, cfg.small, none⟩, ⟨cfg.slip, next_state, f_reward, none⟩]

/-- Construction (`NChainEnv.__init__`): `state = 0`, `iters = 0`, and the
random source seeded from entropy (the stream `entropy`). -/
def init (cfg : Config) (entropy : ℕ → ℚ) : Env :=
  { cfg := cfg, state := 0, iters := 0, rng := entropy, rngPos := 0 }

/-- Modelled from the spec: `NChainEnv.seed` calls `seeding.np_random(seed)`
(`gym.utils.seeding`, not under `src/`), which deterministically derives a
fresh generator from the seed and replaces `self.np_random`; here the new
generator is the given draw stream, read from position 0. -/
def seedEnv (e : Env) (g : ℕ → ℚ) : Env :=
  { e with rng := g, rngPos := 0 }

/-- `NChainEnv.step`. Returns `(none, e)` when the action assertion fails
(the environment is untouched); otherwise `(some (observation, reward, done),
updated environment)`. Mirrors the body line by line: draw `u`, flip the
action on `u < slip`, branch on backward / mid-chain forward / end-of-chain
forward, then bump `iters` and fire `done` at `max_iters`. -/
def step (e : Env) (action : ℤ) : Option (ℕ × ℚ × Bool) × Env :=
  if containsAction action then
    let u := e.rng e.rngPos
    -- `if self.np_random.rand() < self.slip: action = not action`
    -- (`not 0 = True`, i.e. backward; `not 1 = False`, i.e. forward)
    let backward : Bool := if u < e.cfg.slip then action == 0 else action == 1
    let (reward, state') :=
      if backward then (e.cfg.small, 0)
      else if e.state < e.cfg.n - 1 then ((0 : ℚ), e.state + 1)
      else (e.cfg.large, e.state)
    let iters1 := e.iters + 1
    let (done, iters') := if iters1 = e.cfg.max_iters then (true, 0) else (false, iters1)
    (some (state', reward, done),
      { e with state := state', iters := iters', rngPos := e.rngPos + 1 })
  else
    (none, e)

/-- `NChainEnv.reset`: `self.state = 0; return self.state`. -/
def reset (e : Env) : ℕ × Env :=
  (0, { e with state := 0 })

/-- Observation component of a `step` call. -/
def stepObs (e : Env) (a : ℤ) : Option ℕ :=
  ((step e a).1).map (fun o => o.1)

/-- Reward component of a `step` call. -/
def stepReward (e : Env) (a : ℤ) : Option ℚ :=
  ((step e a).1).map (fun o => o.2.1)

/-- Done flag of a `step` call. -/
def stepDone (e : Env) (a : ℤ) : Option Bool :=
  ((step e a).1).map (fun o => o.2.2)

/-- Environment after a `step` call. -/
def stepEnv (e : Env) (a : ℤ) : Env :=
  (step e a).2

/-- The `(state, reward)` pair produced by the transition part of `step`
(lines 79–86 of the source) from state `s`, requested action `action`, and
slip outcome `slipped` (the truth of `u < slip`). -/
def stepResult (cfg : Config) (s : ℕ) (action : ℤ) (slipped : Bool) : ℕ × ℚ :=
  let backward : Bool := if slipped then action == 0 else action == 1
  if backward then (0, cfg.small)
  else if s < cfg.n - 1 then (s + 1, 0)
  else (s, cfg.large)

/-- Probability a weighted outcome list assigns to a `(next_state, reward)`
target: the sum of the probabilities of the matching entries. -/
def mass (l : List PEntry) (t : ℕ × ℚ) : ℚ :=
  l.foldr (fun p acc => (if (p.next, p.reward) = t then p.prob else 0) + acc) 0

/-- Distribution over `(next_state, reward)` induced by the
slip-then-deterministic execution of `step`: the slip event `u < slip` has probability
`slip` under a uniform draw, so target `t` receives `1 - slip` from the
no-slip branch and `slip` from the slip branch. -/
def stepDist (cfg : Config) (s : ℕ) (action : ℤ) (t : ℕ × ℚ) : ℚ :=
  (1 - cfg.slip) * (if stepResult cfg s action false = t then 1 else 0)
  + cfg.slip * (if stepResult cfg s action true = t then 1 else 0)

/-- One external call: `reset()` or `step(a)`. -/
inductive Call where
  | resetC : Call
  | stepC : ℤ → Call

/-- Environment after one call (return values discarded). -/
def applyCall (e : Env) : Call → Env
  | .resetC => (reset e).2
  | .stepC a => (step e a).2

/-- Environment after a sequence of calls. -/
def runCalls (e : Env) : List Call → Env
  | [] => e
  | c :: cs => runCalls (applyCall e c) cs

/-- Outputs and final environment of a sequence of `step` calls. -/
def runSteps (e : Env) : List ℤ → List (Option (ℕ × ℚ × Bool)) × Env
  | [] => ([], e)
  | a :: as =>
    let r := step e a
    let rest := runSteps r.2 as
    (r.1 :: rest.1, rest.2)

/-! ### Shared lemmas -/

/-- Valid actions pass the membership test. -/
theorem containsAction_valid {a : ℤ} (ha : a = 0 ∨ a = 1) :
    containsAction a = true := by
  rcases ha with rfl | rfl <;> decide

/-- The membership test accepts exactly the two actions 0 and 1. -/
theorem containsAction_iff {a : ℤ} :
    containsAction a = true ↔ (a = 0 ∨ a = 1) := by
  simp only [containsAction, Bool.and_eq_true, decide_eq_true_eq]
  omega

/-- On an action failing the membership test, `step` is the error value and
the environment is returned untouched. -/
theorem step_nonmember_eq (e : Env) (a : ℤ) (hc : containsAction a = false) :
    step e a = (none, e) := by
  simp [step, hc]

/-- Characterization of `step` on a valid action: the transition part is
`stepResult`, the draw cursor advances by one, and the counter/done logic is
as in the source. -/
theorem step_valid_eq (e : Env) (a : ℤ) (ha : a = 0 ∨ a = 1) :
    step e a =
      (some ((stepResult e.cfg e.state a (decide (e.rng e.rngPos < e.cfg.slip))).1,
             (stepResult e.cfg e.state a (decide (e.rng e.rngPos < e.cfg.slip))).2,
             decide (e.iters + 1 = e.cfg.max_iters)),
       { e with
         state := (stepResult e.cfg e.state a (decide (e.rng e.rngPos < e.cfg.slip))).1,
         iters := if e.iters + 1 = e.cfg.max_iters then 0 else e.iters + 1,
         rngPos := e.rngPos + 1 }) := by
  have hc := containsAction_valid ha
  by_cases hu : e.rng e.rngPos < e.cfg.slip <;>
    by_cases hm : e.iters + 1 = e.cfg.max_iters <;>
      simp [step, stepResult, hc, hu, hm] <;>
        split_ifs <;> simp

/-! ### Claim theorems -/

/-- Claim C3: `step` with an action outside `{0, 1}` fails before any
effect: the result is the error value together with the environment exactly
as it was (same `state`, `iters`, and untouched random source). -/
theorem step_invalid_no_effect (e : Env) (a : ℤ) (ha : ¬ (a = 0 ∨ a = 1)) :
    step e a = (none, e) := by
  refine step_nonmember_eq e a ?_
  cases hb : containsAction a with
  | false => rfl
  | true => exact absurd (containsAction_iff.mp hb) ha

/-- Witness for C3 at action 2. -/
theorem step_invalid_no_effect_witness :
    ¬ ((2 : ℤ) = 0 ∨ (2 : ℤ) = 1) ∧
      step (init ⟨5, 1/5, 2, 10, 1000⟩ (fun _ => 1/2)) 2 =
        (none, init ⟨5, 1/5, 2, 10, 1000⟩ (fun _ => 1/2)) :=
  ⟨by decide, step_invalid_no_effect _ 2 (by decide)⟩

/-- Claim C4: `reset` returns observation 0, sets `state` to 0, and changes
nothing else — `iters`, the random source and the configuration are all
untouched. -/
theorem reset_only_state (e : Env) :
    (reset e).1 = 0 ∧ (reset e).2.state = 0 ∧ (reset e).2.iters = e.iters ∧
      (reset e).2.rng = e.rng ∧ (reset e).2.rngPos = e.rngPos ∧
      (reset e).2.cfg = e.cfg :=
  ⟨rfl, rfl, rfl, rfl, rfl, rfl⟩

/-- Claim C9: two environments built with the same configuration and then
seeded with the same seed produce identical step outputs on any common
sequence of requested actions, whatever entropy their construction used. -/
theorem determinism_under_seed (npRandom : Option ℕ → ℕ → ℚ) (cfg : Config)
    (seedv : Option ℕ) (entropy1 entropy2 : ℕ → ℚ) (actions : List ℤ)
    (e1 e2 : Env)
    (h1 : e1 = seedEnv (init cfg entropy1) (npRandom seedv))
    (h2 : e2 = seedEnv (init cfg entropy2) (npRandom seedv)) :
    (runSteps e1 actions).1 = (runSteps e2 actions).1 := by
  subst h1; subst h2; rfl

/-- Witness for C9: same seed, different construction entropy, equal
outputs on the action sequence `[0, 1]`. -/
theorem determinism_under_seed_witness :
    (seedEnv (init ⟨5, 1/5, 2, 10, 1000⟩ (fun _ => 1/3)) ((fun _ _ => (0 : ℚ)) (some 7)) =
        seedEnv (init ⟨5, 1/5, 2, 10, 1000⟩ (fun _ => 1/3)) ((fun _ _ => (0 : ℚ)) (some 7))) ∧
      (runSteps (seedEnv (init ⟨5, 1/5, 2, 10, 1000⟩ (fun _ => 1/3))
          ((fun _ _ => (0 : ℚ)) (some 7))) [0, 1]).1 =
        (runSteps (seedEnv (init ⟨5, 1/5, 2, 10, 1000⟩ (fun _ => 2/3))
          ((fun _ _ => (0 : ℚ)) (some 7))) [0, 1]).1 :=
  ⟨rfl, determinism_under_seed (fun _ _ => 0) ⟨5, 1/5, 2, 10, 1000⟩ (some 7)
    (fun _ => 1/3) (fun _ => 2/3) [0, 1] _ _ rfl rfl⟩

/-- Sample environment for witnesses: default configuration, fresh run,
constant draw stream 1/2. -/
def sampleEnv : Env :=
  ⟨⟨5, mkRat 1 5, 2, 10, 1000⟩, 0, 0, fun _ => mkRat 1 2, 0⟩

/-- Sample environment one step away from episode termination
(`max_iters = 1`), sitting mid-chain at state 2, no slip. -/
def doneEnv : Env :=
  ⟨⟨5, 0, 2, 10, 1⟩, 2, 0, fun _ => mkRat 1 2, 0⟩

/-- Claim C1: on a valid action, one uniform draw `u` is consumed from the
random source; the executed action is the 0↔1 negation of the request when
`u < slip` and the request itself otherwise; backward execution yields
`small` and state 0; forward execution below `n - 1` yields 0 and bumps the
state; forward execution at `n - 1` yields `large` and leaves the state. -/
theorem step_slip_and_transition (e : Env) (a : ℤ) (ha : a = 0 ∨ a = 1) :
    (stepEnv e a).rngPos = e.rngPos + 1 ∧
    ((if e.rng e.rngPos < e.cfg.slip then 1 - a else a) = 1 →
      stepReward e a = some e.cfg.small ∧ (stepEnv e a).state = 0 ∧
        stepObs e a = some 0) ∧
    ((if e.rng e.rngPos < e.cfg.slip then 1 - a else a) = 0 →
      e.state < e.cfg.n - 1 →
      stepReward e a = some 0 ∧ (stepEnv e a).state = e.state + 1 ∧
        stepObs e a = some (e.state + 1)) ∧
    ((if e.rng e.rngPos < e.cfg.slip then 1 - a else a) = 0 →
      e.state = e.cfg.n - 1 →
      stepReward e a = some e.cfg.large ∧ (stepEnv e a).state = e.state ∧
        stepObs e a = some e.state) := by
  have h := step_valid_eq e a ha
  rcases ha with rfl | rfl <;>
    by_cases hu : e.rng e.rngPos < e.cfg.slip <;>
      by_cases hs : e.state < e.cfg.n - 1 <;>
        simp [stepObs, stepReward, stepEnv, h, stepResult, hu, hs] <;>
          omega

/-- Witness for C1: in `sampleEnv` the draw 1/2 does not slip, the request
0 is executed forward from state 0 < 4, giving reward 0 and state 1. -/
theorem step_slip_and_transition_witness :
    stepReward sampleEnv 0 = some 0 ∧ (stepEnv sampleEnv 0).state = 0 + 1 ∧
      stepObs sampleEnv 0 = some (0 + 1) :=
  (step_slip_and_transition sampleEnv 0 (Or.inl rfl)).2.2.1 (by decide) (by decide)

/-- Claim C2: a valid `step` increments `iters`; `done` is true exactly when
the incremented counter equals `max_iters`, in which case the counter is
reset to 0 before returning; otherwise the counter keeps the incremented
value; and the counter stays below `max_iters`, so it never reaches
`max_iters + 1` without `done` having fired. -/
theorem step_counter_protocol (e : Env) (a : ℤ) (ha : a = 0 ∨ a = 1) :
    (e.iters + 1 = e.cfg.max_iters →
      stepDone e a = some true ∧ (stepEnv e a).iters = 0) ∧
    (e.iters + 1 ≠ e.cfg.max_iters →
      stepDone e a = some false ∧ (stepEnv e a).iters = e.iters + 1) ∧
    (e.iters < e.cfg.max_iters → (stepEnv e a).iters < e.cfg.max_iters) := by
  have h := step_valid_eq e a ha
  by_cases hm : e.iters + 1 = e.cfg.max_iters <;>
    simp [stepDone, stepEnv, h, hm] <;> omega

/-- Witness for C2: in `sampleEnv` (counter 0, budget 1000) a step gives
`done = false` and counter 1. -/
theorem step_counter_protocol_witness :
    stepDone sampleEnv 0 = some false ∧ (stepEnv sampleEnv 0).iters = 0 + 1 :=
  (step_counter_protocol sampleEnv 0 (Or.inl rfl)).2.1 (by decide)

/-- Claim C10: after any valid `step` — in particular one that returns
`done = true` — the stored `state` is exactly the observation returned and
equals the result of the normal transition of that step; the termination branch
touches only the counter, so a further `step` continues from this state. -/
theorem done_step_keeps_state (e : Env) (a : ℤ) (ha : a = 0 ∨ a = 1) :
    stepObs e a = some ((stepEnv e a).state) ∧
      (stepEnv e a).state =
        (stepResult e.cfg e.state a (decide (e.rng e.rngPos < e.cfg.slip))).1 := by
  have h := step_valid_eq e a ha
  simp [stepObs, stepEnv, h]

/-- Witness for C10: in `doneEnv` the step fires `done = true` (counter hits
`max_iters = 1`) yet the state advances to 3 and is not reset to 0. -/
theorem done_step_keeps_state_witness :
    (stepObs doneEnv 0 = some ((stepEnv doneEnv 0).state) ∧
      (stepEnv doneEnv 0).state =
        (stepResult doneEnv.cfg doneEnv.state 0
          (decide (doneEnv.rng doneEnv.rngPos < doneEnv.cfg.slip))).1) ∧
      stepDone doneEnv 0 = some true ∧ (stepEnv doneEnv 0).state = 3 :=
  ⟨done_step_keeps_state doneEnv 0 (Or.inl rfl), by decide, by decide⟩

/-- The transition part of `step` stays inside the chain. -/
theorem stepResult_fst_lt (cfg : Config) (s : ℕ) (a : ℤ) (slipped : Bool)
    (h1 : 1 ≤ cfg.n) (hs : s < cfg.n) :
    (stepResult cfg s a slipped).1 < cfg.n := by
  simp only [stepResult]
  cases slipped <;> by_cases hb0 : a = 0 <;> by_cases hb1 : a = 1 <;>
    simp [hb0, hb1] <;>
      first
        | omega
        | (split_ifs <;> simp <;> omega)

/-- Neither a `reset` nor a `step` changes the configuration. -/
theorem applyCall_cfg (e : Env) (c : Call) : (applyCall e c).cfg = e.cfg := by
  cases c with
  | resetC => rfl
  | stepC a =>
    cases hb : containsAction a with
    | false => simp [applyCall, step_nonmember_eq e a hb]
    | true => simp [applyCall, step_valid_eq e a (containsAction_iff.mp hb)]

/-- Any single call keeps the state inside the chain. -/
theorem applyCall_state_lt (e : Env) (c : Call) (h1 : 1 ≤ e.cfg.n)
    (hs : e.state < e.cfg.n) : (applyCall e c).state < e.cfg.n := by
  cases c with
  | resetC => exact lt_of_le_of_lt (Nat.zero_le _) hs
  | stepC a =>
    cases hb : containsAction a with
    | false => simpa [applyCall, step_nonmember_eq e a hb] using hs
    | true =>
      simp only [applyCall, step_valid_eq e a (containsAction_iff.mp hb)]
      exact stepResult_fst_lt e.cfg e.state a _ h1 hs

/-- A call sequence keeps the configuration. -/
theorem runCalls_cfg (e : Env) (cs : List Call) :
    (runCalls e cs).cfg = e.cfg := by
  induction cs generalizing e with
  | nil => rfl
  | cons c cs ih => rw [runCalls, ih, applyCall_cfg]

/-- A call sequence keeps the state inside the chain. -/
theorem runCalls_state_lt (e : Env) (cs : List Call) (h1 : 1 ≤ e.cfg.n)
    (hs : e.state < e.cfg.n) : (runCalls e cs).state < e.cfg.n := by
  induction cs generalizing e with
  | nil => exact hs
  | cons c cs ih =>
    rw [runCalls]
    have hc := applyCall_cfg e c
    have := ih (applyCall e c) (hc ▸ h1) (hc ▸ applyCall_state_lt e c h1 hs)
    rwa [hc] at this

/-- Claim C5: for any configuration with `n ≥ 1`, the invariant
`0 ≤ state < n` holds after construction and is preserved by every sequence
of `reset` and `step` calls, whatever the draws of the random source. -/
theorem state_bounds (cfg : Config) (entropy : ℕ → ℚ) (calls : List Call)
    (h : 1 ≤ cfg.n) :
    (runCalls (init cfg entropy) calls).state < cfg.n := by
  exact runCalls_state_lt (init cfg entropy) calls h h

/-- Witness for C5 on the default configuration and a short call sequence
mixing steps, an invalid step, and a reset. -/
theorem state_bounds_witness :
    (runCalls (init ⟨5, mkRat 1 5, 2, 10, 1000⟩ (fun _ => mkRat 1 2))
      [Call.stepC 0, Call.stepC 0, Call.stepC 7, Call.resetC,
       Call.stepC 1]).state < 5 :=
  state_bounds ⟨5, mkRat 1 5, 2, 10, 1000⟩ (fun _ => mkRat 1 2) _ (by decide)

/-- Claim C7: for every in-range `(state, action)` pair the transition table
holds exactly two `(probability, next_state, reward)` outcomes, their
probabilities are `1 - slip` and `slip`, and they sum to 1. -/
theorem table_shape (cfg : Config) (s a : ℕ) (_hs : s < cfg.n) (_ha : a < 2) :
    (transitions cfg s a).length = 2 ∧
      (transitions cfg s a).map PEntry.prob = [1 - cfg.slip, cfg.slip] ∧
      ((transitions cfg s a).map PEntry.prob).sum = 1 := by
  unfold transitions
  split_ifs <;> simp

/-- Witness for C7 at the default configuration, state 0, action 1. -/
theorem table_shape_witness :
    (transitions ⟨5, mkRat 1 5, 2, 10, 1000⟩ 0 1).length = 2 ∧
      (transitions ⟨5, mkRat 1 5, 2, 10, 1000⟩ 0 1).map PEntry.prob =
        [1 - mkRat 1 5, mkRat 1 5] ∧
      ((transitions ⟨5, mkRat 1 5, 2, 10, 1000⟩ 0 1).map PEntry.prob).sum = 1 :=
  table_shape ⟨5, mkRat 1 5, 2, 10, 1000⟩ 0 1 (by decide) (by decide)

/-- Claim C6: for every in-range `(state, action)` pair, the distribution
over `(next_state, reward)` induced by the slip-then-deterministic
execution of `step` coincides, target by target, with the two weighted outcomes the
construction stores in the transition table. -/
theorem table_matches_step (cfg : Config) (s a : ℕ) (hs : s < cfg.n)
    (ha : a < 2) (t : ℕ × ℚ) :
    mass (transitions cfg s a) t = stepDist cfg s (a : ℤ) t := by
  have hsplit : s = cfg.n - 1 ∨ (s < cfg.n - 1 ∧ s ≠ cfg.n - 1) := by omega
  interval_cases a
  · rcases hsplit with h | ⟨h, h'⟩
    · simp [mass, transitions, stepDist, stepResult, h, mul_ite]
    · simp [mass, transitions, stepDist, stepResult, h, h', mul_ite]
  · rcases hsplit with h | ⟨h, h'⟩
    · simp [mass, transitions, stepDist, stepResult, h, mul_ite]
    · simp [mass, transitions, stepDist, stepResult, h, h', mul_ite]

/-- Witness for C6 at the default configuration, state 0, action 0, target
`(next_state, reward) = (1, 0)`. -/
theorem table_matches_step_witness :
    mass (transitions ⟨5, mkRat 1 5, 2, 10, 1000⟩ 0 0) (1, 0) =
      stepDist ⟨5, mkRat 1 5, 2, 10, 1000⟩ 0 ((0 : ℕ) : ℤ) (1, 0) :=
  table_matches_step ⟨5, mkRat 1 5, 2, 10, 1000⟩ 0 0 (by decide) (by decide)
    (1, 0)

/-- Claim C8: with `n = 5`, `slip = 0`, `small = 2`, `large = 10`, starting
right after a `reset`, the calls `step 0` five times then `step 1` return
`(1,0,false)`, `(2,0,false)`, `(3,0,false)`, `(4,0,false)`, `(4,10,false)`,
`(0,2,false)` in order, for any draw stream with nonnegative draws. -/
theorem scenario_run (entropy : ℕ → ℚ) (h : ∀ i, 0 ≤ entropy i) :
    (runSteps (reset (init ⟨5, 0, 2, 10, 1000⟩ entropy)).2
        [0, 0, 0, 0, 0, 1]).1 =
      [some (1, 0, false), some (2, 0, false), some (3, 0, false),
       some (4, 0, false), some (4, 10, false), some (0, 2, false)] := by
  have h' : ∀ i, ¬ (entropy i < 0) := fun i => not_lt.2 (h i)
  simp [runSteps, step, reset, init, containsAction, h']

/-- Witness for C8 with the constant draw stream 1. -/
theorem scenario_run_witness :
    (runSteps (reset (init ⟨5, 0, 2, 10, 1000⟩ (fun _ => 1))).2
        [0, 0, 0, 0, 0, 1]).1 =
      [some (1, 0, false), some (2, 0, false), some (3, 0, false),
       some (4, 0, false), some (4, 10, false), some (0, 2, false)] :=
  scenario_run (fun _ => 1) (by intro i; norm_num)

end NChain
